import Mathlib

/-!
Shallow embedding of `src/Pages/chat-bot/chat-bot.tsx` (the `MyChatBot`
React component), together with theorems about its session state machine.

The component is single-threaded event-loop code.  We model it as a
transition system: a `ChatState` mirrors the React state hooks plus the
local variables of an in-flight `handleSubmit` call, and an `Event`
mirrors each discrete event the UI thread can process (typing, form
submissions, arrival of one stream chunk, stream end, stream fault).
Each `setMessages`/`setX` call of the source becomes a field update; the
functional updates passed to `setMessages` become the list functions
`applyFragmentUpdate`, `markDoneUpdate` and `errorUpdate`, copied from
the `.map` calls at lines 103-107, 111-115 and 120-130 of the source.
-/

namespace ChatBot

/-- Sender of a message: the TS union type `"user" | "bot"` (line 7). -/
inductive Sender where
  | user
  | bot
deriving DecidableEq, Repr

/-- The `Message` record of lines 4-9.  `isStreaming?: boolean` is an
optional field, hence `Option Bool`; it is absent (`none`) on user
messages and on the welcome message. -/
structure Message where
  id : String
  text : String
  sender : Sender
  isStreaming : Option Bool
deriving DecidableEq, Repr

/-- The initial welcome message (lines 12-18). -/
def welcomeMessage : Message :=
  { id := "welcome"
    text := "Hello, I am an AI assistant powered by Gemini. How can I help you today?"
    sender := Sender.bot
    isStreaming := none }

/-- The fixed user-facing error string written into the bot message on a
generation failure (line 125). -/
def errorText : String :=
  "Sorry, I encountered an error while generating a response. Please try again or check your API key."

/-- The `generationConfig` object of lines 84-89.  The numeric literals
are exact decimal constants in the source, embedded as rationals. -/
structure GenerationConfig where
  temperature : ℚ
  topK : ℕ
  topP : ℚ
  maxOutputTokens : ℕ
deriving DecidableEq, Repr

/-- One conversation turn of the `contents` array (line 93); `parts` is
the list of the part texts. -/
structure Turn where
  role : String
  parts : List String
deriving DecidableEq, Repr

/-- The request issued to the provider: model identifier and generation
config from `getGenerativeModel` (lines 82-90) and the `contents` passed
to `generateContentStream` (lines 92-94). -/
structure ProviderRequest where
  model : String
  config : GenerationConfig
  contents : List Turn
deriving DecidableEq, Repr

/-- The request `handleSubmit` issues for a user message text `t`:
`getGenerativeModel({model: "gemini-1.5-pro", generationConfig: {...}})`
followed by `generateContentStream({contents: [{role: "user", parts:
[{text: userMessage.text}]}]})` (lines 82-94). -/
def requestFor (t : String) : ProviderRequest :=
  { model := "gemini-1.5-pro"
    config :=
      { temperature := 7/10
        topK := 40
        topP := 95/100
        maxOutputTokens := 1024 }
    contents := [{ role := "user", parts := [t] }] }

/-- Local state of an in-flight `handleSubmit` call: the `botMessageId`
local (line 65) and the `fullText` accumulator (line 96). -/
structure Pending where
  botId : String
  acc : String
deriving DecidableEq, Repr

/-- The component state: one field per React state hook (lines 12-25),
plus `genAI` for `genAIRef.current` (the client handle, modelled by the
key it was constructed from), `pending` for the locals of an in-flight
`handleSubmit`, and `requests` recording every request handed to
`generateContentStream`, newest last. -/
structure ChatState where
  messages : List Message
  inputValue : String
  isLoading : Bool
  apiKey : String
  apiKeyInput : String
  isApiKeySet : Bool
  genAI : Option String
  pending : Option Pending
  requests : List ProviderRequest
deriving DecidableEq, Repr

/-- The initial state (lines 12-25): the transcript holds only the
welcome message, all strings empty, no client handle, nothing pending. -/
def initState : ChatState :=
  { messages := [welcomeMessage]
    inputValue := ""
    isLoading := false
    apiKey := ""
    apiKeyInput := ""
    isApiKeySet := false
    genAI := none
    pending := none
    requests := [] }

/-- The functional update passed to `setMessages` for each stream chunk
(lines 103-107): every message whose id equals `botId` gets its `text`
replaced by the accumulator value `full`; all others are unchanged. -/
def applyFragmentUpdate (botId full : String) (ms : List Message) : List Message :=
  ms.map fun m => if m.id = botId then { m with text := full } else m

/-- The functional update passed to `setMessages` on normal end of
stream (lines 111-115): the message with id `botId` gets
`isStreaming := false`. -/
def markDoneUpdate (botId : String) (ms : List Message) : List Message :=
  ms.map fun m => if m.id = botId then { m with isStreaming := some false } else m

/-- The functional update passed to `setMessages` in the catch block
(lines 120-130): the message with id `botId` gets its `text` replaced by
`errorText` and `isStreaming := false`. -/
def errorUpdate (botId : String) (ms : List Message) : List Message :=
  ms.map fun m =>
    if m.id = botId then { m with text := errorText, isStreaming := some false } else m

/-- JavaScript `String.prototype.trim()` as used at line 55: drop
whitespace from both ends of the string. -/
def jsTrim (s : String) : String :=
  String.mk (((s.data.dropWhile Char.isWhitespace).reverse.dropWhile Char.isWhitespace).reverse)

/-- The `handleApiKeySubmit` handler (lines 33-45).  `setApiKey` runs
unconditionally before the try block; the constructor
`new GoogleGenerativeAI(apiKeyInput)` may throw, which the parameter
`ok` models: on success the handle is stored and `isApiKeySet` becomes
true, on a throw the catch block only reports to the user. -/
def handleApiKeySubmit (ok : Bool) (s : ChatState) : ChatState :=
  let s1 := { s with apiKey := s.apiKeyInput }
  if ok then { s1 with genAI := some s.apiKeyInput, isApiKeySet := true } else s1

/-- The synchronous part of `handleSubmit` (lines 53-94) together with
the issuing of the stream request: if `inputValue.trim()` is empty it
returns early with no change (line 55); otherwise it appends the user
message and the streaming placeholder bot message (lines 58-73), clears
the draft (line 74), sets the busy flag (line 75), reinitialises the
client handle from `apiKey` if it is absent (lines 78-80), and issues
the request of lines 82-94 built from `userMessage.text` (the submitted
draft).  Consumption of the resulting stream is modelled by the
`fragment`, `streamDone` and `streamFault` events below. -/
def handleSubmitSync (userId botId : String) (s : ChatState) : ChatState :=
  if jsTrim s.inputValue = "" then s
  else
    { s with
      messages := s.messages ++
        [ { id := userId, text := s.inputValue, sender := Sender.user, isStreaming := none }
        , { id := botId, text := "", sender := Sender.bot, isStreaming := some true } ]
      inputValue := ""
      isLoading := true
      genAI := if s.genAI = none then some s.apiKey else s.genAI
      pending := some { botId := botId, acc := "" }
      requests := s.requests ++ [requestFor s.inputValue] }

/-- The discrete events the UI thread can process.  `typeApiKey` and
`typeDraft` are the controlled-input change handlers; `apiKeySubmit` and
`submit` are the two form submissions (`submit` carries the fresh ids
`user-${Date.now()}` and `bot-${Date.now()}` of lines 59 and 65);
`fragment` is the arrival of one chunk of `result.stream` (lines
98-108); `streamDone` is normal end of the stream (lines 110-115 plus
the finally block); `streamFault` is a fault raised anywhere inside the
try (lines 116-133). -/
inductive Event where
  | typeApiKey (t : String)
  | apiKeySubmit (ok : Bool)
  | typeDraft (t : String)
  | submit (userId botId : String)
  | fragment (chunk : String)
  | streamDone
  | streamFault
deriving DecidableEq, Repr

/-- One transition of the component.  Guards mirror the rendered UI: the
API-key form exists only while `isApiKeySet` is false (line 255); the
chat form exists only once it is true, and its text input is disabled
while `isLoading` (line 320), so draft typing cannot happen while busy.
`handleSubmit` itself performs no busy check, so the `submit` event is
allowed in every state where the chat form is rendered.  The stream
events fire only while a `handleSubmit` call is in flight (`pending`). -/
def step : Event → ChatState → ChatState
  | Event.typeApiKey t, s =>
      if s.isApiKeySet then s else { s with apiKeyInput := t }
  | Event.apiKeySubmit ok, s =>
      if s.isApiKeySet then s else handleApiKeySubmit ok s
  | Event.typeDraft t, s =>
      if s.isApiKeySet ∧ ¬s.isLoading then { s with inputValue := t } else s
  | Event.submit userId botId, s =>
      if s.isApiKeySet then handleSubmitSync userId botId s else s
  | Event.fragment chunk, s =>
      match s.pending with
      | some p =>
          let acc := p.acc ++ chunk
          { s with
            messages := applyFragmentUpdate p.botId acc s.messages
            pending := some { botId := p.botId, acc := acc } }
      | none => s
  | Event.streamDone, s =>
      match s.pending with
      | some p =>
          { s with
            messages := markDoneUpdate p.botId s.messages
            isLoading := false
            pending := none }
      | none => s
  | Event.streamFault, s =>
      match s.pending with
      | some p =>
          { s with
            messages := errorUpdate p.botId s.messages
            isLoading := false
            pending := none }
      | none => s

/-- Run a list of events from a state, first event first. -/
def run (es : List Event) (s : ChatState) : ChatState :=
  es.foldl (fun t e => step e t) s

/-- The states the component can actually be in: everything reachable
from `initState` by events. -/
inductive Reachable : ChatState → Prop where
  | init : Reachable initState
  | step (e : Event) {s : ChatState} : Reachable s → Reachable (step e s)

/-- Number of transcript messages currently marked as streaming. -/
def streamingCount (ms : List Message) : ℕ :=
  ms.countP fun m => m.isStreaming = some true

/-- A concrete session prefix: the user sets an API key successfully and
types the draft "Hello". -/
def readyEvents : List Event :=
  [Event.typeApiKey "test-key", Event.apiKeySubmit true, Event.typeDraft "Hello"]

/-- The concrete state reached by submitting the draft typed in
`readyEvents`: a request is in flight and the placeholder is streaming. -/
def busyState : ChatState :=
  step (Event.submit "u1" "b1") (run readyEvents initState)

/-- A concrete session prefix holding one completed exchange in the
transcript, with a second draft typed and ready to submit. -/
def secondTurnEvents : List Event :=
  [ Event.typeApiKey "test-key", Event.apiKeySubmit true
  , Event.typeDraft "First question", Event.submit "u1" "b1"
  , Event.fragment "First answer", Event.streamDone
  , Event.typeDraft "Second" ]

/-! ### Generic helper lemmas -/

lemma run_append (es fs : List Event) (s : ChatState) :
    run (es ++ fs) s = run fs (run es s) := by
  simp [run, List.foldl_append]

lemma join_cons (a : String) (l : List String) :
    String.join (a :: l) = a ++ String.join l := by
  apply String.ext
  simp [String.join_eq, String.data_append]

lemma join_concat (l : List String) (x : String) :
    String.join (l ++ [x]) = String.join l ++ x := by
  apply String.ext
  simp [String.join_eq, String.data_append]

lemma countP_congr_eq {α : Type} (p q : α → Bool) (l : List α)
    (h : ∀ a ∈ l, p a = q a) : l.countP p = l.countP q := by
  induction l with
  | nil => rfl
  | cons a l ih =>
      simp only [List.countP_cons, h a (List.mem_cons_self a l)]
      rw [ih fun x hx => h x (List.mem_cons_of_mem a hx)]

/-! ### Facts about the three `setMessages` updates -/

lemma applyFragmentUpdate_getElem (botId full : String) (ms : List Message) (i : ℕ) :
    (applyFragmentUpdate botId full ms)[i]? =
      (ms[i]?).map fun m => if m.id = botId then { m with text := full } else m := by
  simp [applyFragmentUpdate, List.getElem?_map]

lemma markDoneUpdate_getElem (botId : String) (ms : List Message) (i : ℕ) :
    (markDoneUpdate botId ms)[i]? =
      (ms[i]?).map fun m => if m.id = botId then { m with isStreaming := some false } else m := by
  simp [markDoneUpdate, List.getElem?_map]

lemma errorUpdate_getElem (botId : String) (ms : List Message) (i : ℕ) :
    (errorUpdate botId ms)[i]? =
      (ms[i]?).map fun m =>
        if m.id = botId then { m with text := errorText, isStreaming := some false } else m := by
  simp [errorUpdate, List.getElem?_map]

lemma applyFragmentUpdate_map_id (botId full : String) (ms : List Message) :
    (applyFragmentUpdate botId full ms).map Message.id = ms.map Message.id := by
  simp only [applyFragmentUpdate, List.map_map]
  refine List.map_congr_left fun m _ => ?_
  by_cases h : m.id = botId <;> simp [h]

lemma markDoneUpdate_map_id (botId : String) (ms : List Message) :
    (markDoneUpdate botId ms).map Message.id = ms.map Message.id := by
  simp only [markDoneUpdate, List.map_map]
  refine List.map_congr_left fun m _ => ?_
  by_cases h : m.id = botId <;> simp [h]

lemma errorUpdate_map_id (botId : String) (ms : List Message) :
    (errorUpdate botId ms).map Message.id = ms.map Message.id := by
  simp only [errorUpdate, List.map_map]
  refine List.map_congr_left fun m _ => ?_
  by_cases h : m.id = botId <;> simp [h]

lemma streamingCount_applyFragmentUpdate (botId full : String) (ms : List Message) :
    streamingCount (applyFragmentUpdate botId full ms) = streamingCount ms := by
  unfold streamingCount applyFragmentUpdate
  rw [List.countP_map]
  refine countP_congr_eq _ _ _ fun m _ => ?_
  by_cases h : m.id = botId <;> simp [h, Function.comp]

/-! ### Unfolding the accepted submit and the fragment loop -/

lemma step_submit_accept (userId botId : String) (s : ChatState)
    (hset : s.isApiKeySet = true) (hne : jsTrim s.inputValue ≠ "") :
    step (Event.submit userId botId) s =
      { s with
        messages := s.messages ++
          [ { id := userId, text := s.inputValue, sender := Sender.user, isStreaming := none }
          , { id := botId, text := "", sender := Sender.bot, isStreaming := some true } ]
        inputValue := ""
        isLoading := true
        genAI := if s.genAI = none then some s.apiKey else s.genAI
        pending := some { botId := botId, acc := "" }
        requests := s.requests ++ [requestFor s.inputValue] } := by
  simp [step, hset, handleSubmitSync, hne]

lemma step_fragment_pending (chunk : String) (s : ChatState) (p : Pending)
    (hp : s.pending = some p) :
    step (Event.fragment chunk) s =
      { s with
        messages := applyFragmentUpdate p.botId (p.acc ++ chunk) s.messages
        pending := some { botId := p.botId, acc := p.acc ++ chunk } } := by
  simp [step, hp]

/-- Running the fragment events for `frags` while `pending` targets
`bId` with accumulator `acc`, and the message at index `i` is the target
with text `acc`: afterwards the accumulator and the text of the target have
grown by the concatenation of `frags`, the target is still streaming,
and the length, busy flag and draft are untouched. -/
lemma run_fragments (frags : List String) :
    ∀ (s : ChatState) (i : ℕ) (bId acc : String) (snd : Sender),
      s.pending = some { botId := bId, acc := acc } →
      s.messages[i]? = some { id := bId, text := acc, sender := snd, isStreaming := some true } →
      (run (frags.map Event.fragment) s).pending =
          some { botId := bId, acc := acc ++ String.join frags } ∧
      (run (frags.map Event.fragment) s).messages[i]? =
          some { id := bId, text := acc ++ String.join frags, sender := snd,
                 isStreaming := some true } ∧
      (run (frags.map Event.fragment) s).messages.length = s.messages.length ∧
      (run (frags.map Event.fragment) s).isLoading = s.isLoading ∧
      (run (frags.map Event.fragment) s).inputValue = s.inputValue := by
  induction frags with
  | nil =>
      intro s i bId acc snd hp hm
      simpa [run, String.append_empty, String.join] using ⟨hp, hm⟩
  | cons c cs ih =>
      intro s i bId acc snd hp hm
      have hstep := step_fragment_pending c s _ hp
      set s1 := step (Event.fragment c) s with hs1
      have hp1 : s1.pending = some { botId := bId, acc := acc ++ c } := by
        rw [hstep]
      have hm1 : s1.messages[i]? =
          some { id := bId, text := acc ++ c, sender := snd, isStreaming := some true } := by
        rw [hstep]
        simp only [applyFragmentUpdate_getElem, hm, Option.map_some]
        simp
      have hrun : run ((c :: cs).map Event.fragment) s = run (cs.map Event.fragment) s1 := by
        simp [run, hs1]
      have hlen : s1.messages.length = s.messages.length := by
        rw [hstep]; simp [applyFragmentUpdate]
      have hload : s1.isLoading = s.isLoading := by rw [hstep]
      have hinput : s1.inputValue = s.inputValue := by rw [hstep]
      obtain ⟨h1, h2, h3, h4, h5⟩ := ih s1 i bId (acc ++ c) snd hp1 hm1
      rw [hrun]
      refine ⟨?_, ?_, ?_, ?_, ?_⟩
      · rw [h1, join_cons, String.append_assoc]
      · rw [h2, join_cons, String.append_assoc]
      · rw [h3, hlen]
      · rw [h4, hload]
      · rw [h5, hinput]

/-! ### The session invariant -/

/-- Invariant tying the busy flag to the rest of the state: while idle
there is no in-flight call and no streaming message; while busy the
draft has been cleared, some call is in flight, at most one message is
streaming, and any streaming message is the in-flight placeholder. -/
def Inv (s : ChatState) : Prop :=
  (s.isLoading = false → s.pending = none ∧ streamingCount s.messages = 0) ∧
  (s.isLoading = true → s.inputValue = "" ∧
    ∃ p, s.pending = some p ∧ streamingCount s.messages ≤ 1 ∧
      ∀ m ∈ s.messages, m.isStreaming = some true → m.id = p.botId)

lemma inv_init : Inv initState := by
  constructor
  · intro _
    exact ⟨rfl, rfl⟩
  · intro h
    simp [initState] at h

lemma step_streamDone_pending (s : ChatState) (p : Pending) (hp : s.pending = some p) :
    step Event.streamDone s =
      { s with messages := markDoneUpdate p.botId s.messages
               isLoading := false
               pending := none } := by
  simp [step, hp]

lemma step_streamFault_pending (s : ChatState) (p : Pending) (hp : s.pending = some p) :
    step Event.streamFault s =
      { s with messages := errorUpdate p.botId s.messages
               isLoading := false
               pending := none } := by
  simp [step, hp]

lemma inv_step (e : Event) (s : ChatState) (h : Inv s) : Inv (step e s) := by
  obtain ⟨hidle, hbusy⟩ := h
  cases e with
  | typeApiKey t =>
      by_cases hk : s.isApiKeySet = true
      · have hstep : step (Event.typeApiKey t) s = s := by simp [step, hk]
        rw [hstep]; exact ⟨hidle, hbusy⟩
      · simp only [Bool.not_eq_true] at hk
        have hstep : step (Event.typeApiKey t) s = { s with apiKeyInput := t } := by
          simp [step, hk]
        rw [hstep]
        exact ⟨fun hl => hidle hl, fun hl => hbusy hl⟩
  | apiKeySubmit ok =>
      by_cases hk : s.isApiKeySet = true
      · have hstep : step (Event.apiKeySubmit ok) s = s := by simp [step, hk]
        rw [hstep]; exact ⟨hidle, hbusy⟩
      · simp only [Bool.not_eq_true] at hk
        cases ok with
        | false =>
            have hstep : step (Event.apiKeySubmit false) s =
                { s with apiKey := s.apiKeyInput } := by
              simp [step, hk, handleApiKeySubmit]
            rw [hstep]
            exact ⟨fun hl => hidle hl, fun hl => hbusy hl⟩
        | true =>
            have hstep : step (Event.apiKeySubmit true) s =
                { s with apiKey := s.apiKeyInput
                         genAI := some s.apiKeyInput
                         isApiKeySet := true } := by
              simp [step, hk, handleApiKeySubmit]
            rw [hstep]
            exact ⟨fun hl => hidle hl, fun hl => hbusy hl⟩
  | typeDraft t =>
      cases hl : s.isLoading with
      | true =>
          have hstep : step (Event.typeDraft t) s = s := by simp [step, hl]
          rw [hstep]; exact ⟨hidle, hbusy⟩
      | false =>
          by_cases hk : s.isApiKeySet = true
          · have hstep : step (Event.typeDraft t) s = { s with inputValue := t } := by
              simp [step, hk, hl]
            rw [hstep]
            refine ⟨fun _ => hidle hl, fun hcon => ?_⟩
            have hcon' : s.isLoading = true := hcon
            rw [hl] at hcon'
            cases hcon'
          · have hstep : step (Event.typeDraft t) s = s := by simp [step, hk]
            rw [hstep]; exact ⟨hidle, hbusy⟩
  | submit userId botId =>
      by_cases hk : s.isApiKeySet = true
      · by_cases htrim : jsTrim s.inputValue = ""
        · have hstep : step (Event.submit userId botId) s = s := by
            simp [step, hk, handleSubmitSync, htrim]
          rw [hstep]; exact ⟨hidle, hbusy⟩
        · -- accepted submission; the pre-state cannot be busy, else the
          -- draft would be empty and the trim guard would have fired
          have hload : s.isLoading = false := by
            cases hl : s.isLoading with
            | false => rfl
            | true =>
                obtain ⟨hempty, _⟩ := hbusy hl
                rw [hempty] at htrim
                exact absurd (by decide) htrim
          obtain ⟨hpnone, hcount⟩ := hidle hload
          have hnostream : ∀ m ∈ s.messages, ¬(m.isStreaming = some true) := by
            intro m hm
            have := List.countP_eq_zero.mp hcount m hm
            simpa using this
          rw [step_submit_accept userId botId s hk htrim]
          refine ⟨fun hcon => ?_, fun _ => ?_⟩
          · cases hcon
          · refine ⟨rfl, { botId := botId, acc := "" }, rfl, ?_, ?_⟩
            · show streamingCount (s.messages ++ _) ≤ 1
              unfold streamingCount at hcount ⊢
              rw [List.countP_append, hcount]
              simp
            · intro m hm hstream
              rcases List.mem_append.mp hm with hold | hnew
              · exact absurd hstream (hnostream m hold)
              · simp only [List.mem_cons, List.mem_singleton] at hnew
                rcases hnew with rfl | rfl | hfalse
                · simp at hstream
                · rfl
                · simp at hfalse
      · have hstep : step (Event.submit userId botId) s = s := by simp [step, hk]
        rw [hstep]; exact ⟨hidle, hbusy⟩
  | fragment chunk =>
      cases hl : s.isLoading with
      | false =>
          obtain ⟨hpn, _⟩ := hidle hl
          have hstep : step (Event.fragment chunk) s = s := by simp [step, hpn]
          rw [hstep]; exact ⟨hidle, hbusy⟩
      | true =>
          obtain ⟨hempty, q, hq, hcount, hall⟩ := hbusy hl
          rw [step_fragment_pending chunk s q hq]
          refine ⟨fun hcon => ?_, fun _ => ?_⟩
          · have hcon' : s.isLoading = false := hcon
            rw [hl] at hcon'
            cases hcon'
          · refine ⟨hempty, { botId := q.botId, acc := q.acc ++ chunk }, rfl, ?_, ?_⟩
            · show streamingCount (applyFragmentUpdate q.botId (q.acc ++ chunk) s.messages) ≤ 1
              rw [streamingCount_applyFragmentUpdate]
              exact hcount
            · intro m hm hstream
              simp only [applyFragmentUpdate, List.mem_map] at hm
              obtain ⟨m0, hm0, hm0eq⟩ := hm
              by_cases hid : m0.id = q.botId
              · rw [← hm0eq]
                simp [hid]
              · have hstream' : m0.isStreaming = some true := by
                  rw [← hm0eq, if_neg hid] at hstream
                  exact hstream
                rw [← hm0eq, if_neg hid]
                exact hall m0 hm0 hstream'
  | streamDone =>
      cases hl : s.isLoading with
      | false =>
          obtain ⟨hpn, _⟩ := hidle hl
          have hstep : step Event.streamDone s = s := by simp [step, hpn]
          rw [hstep]; exact ⟨hidle, hbusy⟩
      | true =>
          obtain ⟨hempty, q, hq, hcount, hall⟩ := hbusy hl
          have hzero : streamingCount (markDoneUpdate q.botId s.messages) = 0 := by
            unfold streamingCount markDoneUpdate
            rw [List.countP_eq_zero]
            intro m hm
            simp only [List.mem_map] at hm
            obtain ⟨m0, hm0, hm0eq⟩ := hm
            by_cases hid : m0.id = q.botId
            · rw [← hm0eq]
              simp [hid]
            · rw [← hm0eq]
              simp only [hid, if_false]
              intro hstream
              simp only [decide_eq_true_eq] at hstream
              exact hid (hall m0 hm0 hstream)
          rw [step_streamDone_pending s q hq]
          refine ⟨fun _ => ⟨rfl, hzero⟩, fun hcon => ?_⟩
          cases hcon
  | streamFault =>
      cases hl : s.isLoading with
      | false =>
          obtain ⟨hpn, _⟩ := hidle hl
          have hstep : step Event.streamFault s = s := by simp [step, hpn]
          rw [hstep]; exact ⟨hidle, hbusy⟩
      | true =>
          obtain ⟨hempty, q, hq, hcount, hall⟩ := hbusy hl
          have hzero : streamingCount (errorUpdate q.botId s.messages) = 0 := by
            unfold streamingCount errorUpdate
            rw [List.countP_eq_zero]
            intro m hm
            simp only [List.mem_map] at hm
            obtain ⟨m0, hm0, hm0eq⟩ := hm
            by_cases hid : m0.id = q.botId
            · rw [← hm0eq]
              simp [hid]
            · rw [← hm0eq]
              simp only [hid, if_false]
              intro hstream
              simp only [decide_eq_true_eq] at hstream
              exact hid (hall m0 hm0 hstream)
          rw [step_streamFault_pending s q hq]
          refine ⟨fun _ => ⟨rfl, hzero⟩, fun hcon => ?_⟩
          cases hcon

lemma reachable_inv {s : ChatState} (h : Reachable s) : Inv s := by
  induction h with
  | init => exact inv_init
  | step e _ ih => exact inv_step e _ ih

lemma reachable_run (es : List Event) {s : ChatState} (h : Reachable s) :
    Reachable (run es s) := by
  induction es generalizing s with
  | nil => exact h
  | cons e es ih => exact ih (Reachable.step e h)

/-! ### The claims -/

/-- C3: in every reachable state in which the busy flag is true, invoking
`handleSubmit` is a no-op: the state, and in particular the transcript,
is unchanged, and no request is appended to the request log.  (The busy
gate lives in the UI: while `isLoading` the text input is disabled, so
the draft stays at the empty string `handleSubmit` itself left it at, and
the `trim` guard fires.) -/
theorem submit_while_busy_noop (s : ChatState) (h : Reachable s)
    (hb : s.isLoading = true) (userId botId : String) :
    step (Event.submit userId botId) s = s := by
  obtain ⟨_, hbusy⟩ := reachable_inv h
  obtain ⟨hempty, _⟩ := hbusy hb
  by_cases hk : s.isApiKeySet = true
  · have htrim : jsTrim s.inputValue = "" := by rw [hempty]; decide
    simp [step, hk, handleSubmitSync, htrim]
  · simp [step, hk]

theorem submit_while_busy_noop_witness :
    busyState.isLoading = true ∧
    step (Event.submit "u2" "b2") busyState = busyState :=
  ⟨rfl, submit_while_busy_noop busyState
    (Reachable.step (Event.submit "u1" "b1") (reachable_run readyEvents Reachable.init))
    rfl "u2" "b2"⟩

/-- C5: submitting while the draft is empty or whitespace-only leaves
the whole state unchanged: nothing is appended to the transcript, no
flag is set, no request is issued. -/
theorem submit_blank_noop (s : ChatState) (userId botId : String)
    (h : jsTrim s.inputValue = "") :
    step (Event.submit userId botId) s = s := by
  by_cases hk : s.isApiKeySet = true
  · simp [step, hk, handleSubmitSync, h]
  · simp [step, hk]

theorem submit_blank_noop_witness :
    jsTrim (run [Event.typeApiKey "k", Event.apiKeySubmit true,
        Event.typeDraft "   "] initState).inputValue = "" ∧
    step (Event.submit "u9" "b9")
        (run [Event.typeApiKey "k", Event.apiKeySubmit true,
          Event.typeDraft "   "] initState) =
      run [Event.typeApiKey "k", Event.apiKeySubmit true,
        Event.typeDraft "   "] initState :=
  ⟨by decide, submit_blank_noop _ "u9" "b9" (by decide)⟩

/-- C6: every transition maps the id sequence of the transcript to itself
followed by some (possibly empty) tail: messages are never deleted or
reordered, and new messages only ever appear at the end. -/
theorem step_transcript_append_only (e : Event) (s : ChatState) :
    ∃ tail, (step e s).messages.map Message.id = s.messages.map Message.id ++ tail := by
  cases e with
  | typeApiKey t =>
      refine ⟨[], ?_⟩
      by_cases hk : s.isApiKeySet = true <;> simp [step, hk]
  | apiKeySubmit ok =>
      refine ⟨[], ?_⟩
      by_cases hk : s.isApiKeySet = true <;> cases ok <;>
        simp [step, hk, handleApiKeySubmit]
  | typeDraft t =>
      refine ⟨[], ?_⟩
      simp only [step]
      split <;> simp
  | submit userId botId =>
      by_cases hk : s.isApiKeySet = true
      · by_cases htrim : jsTrim s.inputValue = ""
        · exact ⟨[], by simp [step, hk, handleSubmitSync, htrim]⟩
        · refine ⟨[userId, botId], ?_⟩
          rw [step_submit_accept userId botId s hk htrim]
          simp
      · exact ⟨[], by simp [step, hk]⟩
  | fragment chunk =>
      refine ⟨[], ?_⟩
      cases hp : s.pending with
      | none => simp [step, hp]
      | some p =>
          rw [step_fragment_pending chunk s p hp]
          simp [applyFragmentUpdate_map_id]
  | streamDone =>
      refine ⟨[], ?_⟩
      cases hp : s.pending with
      | none => simp [step, hp]
      | some p =>
          rw [step_streamDone_pending s p hp]
          simp [markDoneUpdate_map_id]
  | streamFault =>
      refine ⟨[], ?_⟩
      cases hp : s.pending with
      | none => simp [step, hp]
      | some p =>
          rw [step_streamFault_pending s p hp]
          simp [errorUpdate_map_id]

/-- C7: in every reachable state, at most one transcript message is
marked streaming. -/
theorem at_most_one_streaming (s : ChatState) (h : Reachable s) :
    streamingCount s.messages ≤ 1 := by
  obtain ⟨hidle, hbusy⟩ := reachable_inv h
  cases hl : s.isLoading with
  | false =>
      rw [(hidle hl).2]
      exact Nat.zero_le 1
  | true =>
      obtain ⟨_, q, _, hcount, _⟩ := hbusy hl
      exact hcount

theorem at_most_one_streaming_witness :
    streamingCount busyState.messages ≤ 1 :=
  at_most_one_streaming busyState
    (Reachable.step (Event.submit "u1" "b1") (reachable_run readyEvents Reachable.init))

/-- C10: each of the three renderer transcript updates (fragment
application, completion marking, error replacement) leaves every message
whose id differs from the id of the in-flight placeholder exactly where and
as it was. -/
theorem stream_updates_frame (s : ChatState) (p : Pending) (chunk : String)
    (i : ℕ) (m : Message) (hp : s.pending = some p)
    (hm : s.messages[i]? = some m) (hid : m.id ≠ p.botId) :
    (step (Event.fragment chunk) s).messages[i]? = some m ∧
    (step Event.streamDone s).messages[i]? = some m ∧
    (step Event.streamFault s).messages[i]? = some m := by
  refine ⟨?_, ?_, ?_⟩
  · rw [step_fragment_pending chunk s p hp]
    simp only [applyFragmentUpdate_getElem, hm]
    simp [hid]
  · rw [step_streamDone_pending s p hp]
    simp only [markDoneUpdate_getElem, hm]
    simp [hid]
  · rw [step_streamFault_pending s p hp]
    simp only [errorUpdate_getElem, hm]
    simp [hid]

theorem stream_updates_frame_witness :
    (step (Event.fragment "Hi") busyState).messages[0]? = some welcomeMessage ∧
    (step Event.streamDone busyState).messages[0]? = some welcomeMessage ∧
    (step Event.streamFault busyState).messages[0]? = some welcomeMessage :=
  stream_updates_frame busyState { botId := "b1", acc := "" } "Hi" 0 welcomeMessage
    rfl rfl (by decide)

/-- C4 counterexample: submitting a key whose client construction throws
leaves the credential status unset and the transcript untouched, but the
stored credential value `apiKey` does change: `setApiKey` runs before
the `try` block, so the claim that the stored credential value is
unchanged is false. -/
theorem apiKeySubmit_failure_changes_stored_key :
    (step (Event.apiKeySubmit false)
        (step (Event.typeApiKey "bad-key") initState)).isApiKeySet = false ∧
    (step (Event.apiKeySubmit false)
        (step (Event.typeApiKey "bad-key") initState)).messages =
      (step (Event.typeApiKey "bad-key") initState).messages ∧
    (step (Event.apiKeySubmit false)
        (step (Event.typeApiKey "bad-key") initState)).apiKey ≠
      (step (Event.typeApiKey "bad-key") initState).apiKey := by
  refine ⟨rfl, rfl, ?_⟩
  decide

/-- C4 (amended): when provider-client construction throws, the whole
effect of `handleApiKeySubmit` is to overwrite the stored credential
value with the submitted string; credential status, client handle,
transcript and all other state are unchanged, and the failure is only
reported to the user. -/
theorem apiKeySubmit_failure_effect (s : ChatState) (h : s.isApiKeySet = false) :
    step (Event.apiKeySubmit false) s = { s with apiKey := s.apiKeyInput } := by
  simp [step, h, handleApiKeySubmit]

theorem apiKeySubmit_failure_effect_witness :
    (step (Event.typeApiKey "bad-key") initState).isApiKeySet = false ∧
    step (Event.apiKeySubmit false) (step (Event.typeApiKey "bad-key") initState) =
      { step (Event.typeApiKey "bad-key") initState with
          apiKey := (step (Event.typeApiKey "bad-key") initState).apiKeyInput } :=
  ⟨rfl, apiKeySubmit_failure_effect _ rfl⟩

/-- C1: for every accepted submission whose stream yields fragments
`frags` and then ends normally, the placeholder assistant message (at
position `s.messages.length + 1`, right after the appended user message)
ends with text equal to the concatenation of the fragments in arrival
order and streaming flag false; and after any prefix of the fragments,
including all of them, the flag is still true — it becomes false only
after the last fragment has been applied. -/
theorem stream_success_final_text (s : ChatState) (userId botId : String)
    (frags : List String) (hset : s.isApiKeySet = true)
    (hne : jsTrim s.inputValue ≠ "") :
    (run (frags.map Event.fragment ++ [Event.streamDone])
        (step (Event.submit userId botId) s)).messages[s.messages.length + 1]? =
      some { id := botId, text := String.join frags, sender := Sender.bot,
             isStreaming := some false } ∧
    ∀ k, k ≤ frags.length →
      (run ((frags.take k).map Event.fragment)
          (step (Event.submit userId botId) s)).messages[s.messages.length + 1]? =
        some { id := botId, text := String.join (frags.take k), sender := Sender.bot,
               isStreaming := some true } := by
  have hsub := step_submit_accept userId botId s hset hne
  set s1 := step (Event.submit userId botId) s with hs1
  have hp1 : s1.pending = some { botId := botId, acc := "" } := by rw [hsub]
  have hm1 : s1.messages[s.messages.length + 1]? =
      some { id := botId, text := "", sender := Sender.bot, isStreaming := some true } := by
    rw [hsub]
    show (s.messages ++ _)[s.messages.length + 1]? = _
    rw [List.getElem?_append_right (by omega)]
    simp
  refine ⟨?_, ?_⟩
  · rw [run_append]
    obtain ⟨hpn, hmn, _, _, _⟩ :=
      run_fragments frags s1 (s.messages.length + 1) botId "" Sender.bot hp1 hm1
    have hrun1 : run [Event.streamDone] (run (frags.map Event.fragment) s1) =
        step Event.streamDone (run (frags.map Event.fragment) s1) := rfl
    rw [hrun1, step_streamDone_pending (run (frags.map Event.fragment) s1) _ hpn]
    simp only [markDoneUpdate_getElem, hmn]
    simp
  · intro k _
    obtain ⟨_, hmk, _, _, _⟩ :=
      run_fragments (frags.take k) s1 (s.messages.length + 1) botId "" Sender.bot hp1 hm1
    exact hmk

theorem stream_success_final_text_witness :
    jsTrim (run readyEvents initState).inputValue ≠ "" ∧
    (run (["Hi", " there", "!"].map Event.fragment ++ [Event.streamDone])
        (step (Event.submit "u1" "b1") (run readyEvents initState))).messages[2]? =
      some { id := "b1", text := "Hi there!", sender := Sender.bot,
             isStreaming := some false } :=
  ⟨by decide,
    (stream_success_final_text (run readyEvents initState) "u1" "b1"
      ["Hi", " there", "!"] rfl (by decide)).1⟩

/-- C2: for every accepted submission whose stream faults after the
fragments `frags` have been applied (any number, including zero), the
text of the placeholder is entirely replaced by the fixed error string: none
of the accumulated partial text remains — its streaming flag becomes
false, and the busy flag is reset to false. -/
theorem stream_fault_replaces_text (s : ChatState) (userId botId : String)
    (frags : List String) (hset : s.isApiKeySet = true)
    (hne : jsTrim s.inputValue ≠ "") :
    (run (frags.map Event.fragment ++ [Event.streamFault])
        (step (Event.submit userId botId) s)).messages[s.messages.length + 1]? =
      some { id := botId, text := errorText, sender := Sender.bot,
             isStreaming := some false } ∧
    (run (frags.map Event.fragment ++ [Event.streamFault])
        (step (Event.submit userId botId) s)).isLoading = false := by
  have hsub := step_submit_accept userId botId s hset hne
  set s1 := step (Event.submit userId botId) s with hs1
  have hp1 : s1.pending = some { botId := botId, acc := "" } := by rw [hsub]
  have hm1 : s1.messages[s.messages.length + 1]? =
      some { id := botId, text := "", sender := Sender.bot, isStreaming := some true } := by
    rw [hsub]
    show (s.messages ++ _)[s.messages.length + 1]? = _
    rw [List.getElem?_append_right (by omega)]
    simp
  obtain ⟨hpn, hmn, _, _, _⟩ :=
    run_fragments frags s1 (s.messages.length + 1) botId "" Sender.bot hp1 hm1
  have hrun1 : run [Event.streamFault] (run (frags.map Event.fragment) s1) =
      step Event.streamFault (run (frags.map Event.fragment) s1) := rfl
  constructor
  · rw [run_append, hrun1, step_streamFault_pending (run (frags.map Event.fragment) s1) _ hpn]
    simp only [errorUpdate_getElem, hmn]
    simp
  · rw [run_append, hrun1, step_streamFault_pending (run (frags.map Event.fragment) s1) _ hpn]

theorem stream_fault_replaces_text_witness :
    jsTrim (run readyEvents initState).inputValue ≠ "" ∧
    (run (["Hi", " the"].map Event.fragment ++ [Event.streamFault])
        (step (Event.submit "u1" "b1") (run readyEvents initState))).messages[2]? =
      some { id := "b1", text := errorText, sender := Sender.bot,
             isStreaming := some false } ∧
    (run (["Hi", " the"].map Event.fragment ++ [Event.streamFault])
        (step (Event.submit "u1" "b1") (run readyEvents initState))).isLoading = false :=
  ⟨by decide,
    (stream_fault_replaces_text (run readyEvents initState) "u1" "b1"
      ["Hi", " the"] rfl (by decide)).1,
    (stream_fault_replaces_text (run readyEvents initState) "u1" "b1"
      ["Hi", " the"] rfl (by decide)).2⟩

/-- C8: for every accepted submission, after the first `k` fragments of
the stream have been consumed the text of the placeholder equals the
concatenation of those `k` fragments; and each single fragment event
performs exactly one transcript write — `applyFragmentUpdate` with the
full current value of the accumulator, on the state left by the previous
fragments, so a render is triggered per fragment, not batched. -/
theorem fragment_applies_accumulator (s : ChatState) (userId botId : String)
    (frags : List String) (hset : s.isApiKeySet = true)
    (hne : jsTrim s.inputValue ≠ "") :
    (∀ k, k ≤ frags.length →
      (run ((frags.take k).map Event.fragment)
          (step (Event.submit userId botId) s)).messages[s.messages.length + 1]? =
        some { id := botId, text := String.join (frags.take k), sender := Sender.bot,
               isStreaming := some true }) ∧
    ∀ k, (hk : k < frags.length) →
      (run ((frags.take (k + 1)).map Event.fragment)
          (step (Event.submit userId botId) s)).messages =
        applyFragmentUpdate botId (String.join (frags.take (k + 1)))
          ((run ((frags.take k).map Event.fragment)
              (step (Event.submit userId botId) s)).messages) := by
  have hsub := step_submit_accept userId botId s hset hne
  set s1 := step (Event.submit userId botId) s with hs1
  have hp1 : s1.pending = some { botId := botId, acc := "" } := by rw [hsub]
  have hm1 : s1.messages[s.messages.length + 1]? =
      some { id := botId, text := "", sender := Sender.bot, isStreaming := some true } := by
    rw [hsub]
    show (s.messages ++ _)[s.messages.length + 1]? = _
    rw [List.getElem?_append_right (by omega)]
    simp
  constructor
  · intro k _
    obtain ⟨_, hmk, _, _, _⟩ :=
      run_fragments (frags.take k) s1 (s.messages.length + 1) botId "" Sender.bot hp1 hm1
    exact hmk
  · intro k hk
    have htake : frags.take (k + 1) = frags.take k ++ [frags[k]] :=
      (List.take_concat_get' frags k hk).symm
    obtain ⟨hpk, _, _, _, _⟩ :=
      run_fragments (frags.take k) s1 (s.messages.length + 1) botId "" Sender.bot hp1 hm1
    rw [htake, List.map_append, run_append]
    have hrun1 : run ([frags[k]].map Event.fragment)
          (run ((frags.take k).map Event.fragment) s1) =
        step (Event.fragment frags[k]) (run ((frags.take k).map Event.fragment) s1) := rfl
    rw [hrun1, step_fragment_pending frags[k] (run ((frags.take k).map Event.fragment) s1) _ hpk]
    rw [join_concat]
    rfl

theorem fragment_applies_accumulator_witness :
    jsTrim (run readyEvents initState).inputValue ≠ "" ∧
    (run ((["Hi", " there", "!"].take 2).map Event.fragment)
        (step (Event.submit "u1" "b1") (run readyEvents initState))).messages[2]? =
      some { id := "b1", text := "Hi there", sender := Sender.bot,
             isStreaming := some true } :=
  ⟨by decide,
    (fragment_applies_accumulator (run readyEvents initState) "u1" "b1"
      ["Hi", " there", "!"] rfl (by decide)).1 2 (by decide)⟩

/-- C9 (amended): every accepted submission appends exactly one request
to the request log, carrying the new user turn as its sole conversation
turn together with the fixed generation parameters temperature 0.7,
top-k 40, top-p 0.95 and 1024 max output tokens. -/
theorem submit_issues_single_turn_request (s : ChatState) (userId botId : String)
    (hset : s.isApiKeySet = true) (hne : jsTrim s.inputValue ≠ "") :
    (step (Event.submit userId botId) s).requests =
      s.requests ++ [requestFor s.inputValue] ∧
    (requestFor s.inputValue).contents = [{ role := "user", parts := [s.inputValue] }] ∧
    (requestFor s.inputValue).config =
      { temperature := 7/10, topK := 40, topP := 95/100, maxOutputTokens := 1024 } := by
  refine ⟨?_, rfl, rfl⟩
  rw [step_submit_accept userId botId s hset hne]

theorem submit_issues_single_turn_request_witness :
    jsTrim (run readyEvents initState).inputValue ≠ "" ∧
    (step (Event.submit "u1" "b1") (run readyEvents initState)).requests =
      (run readyEvents initState).requests ++ [requestFor "Hello"] :=
  ⟨by decide,
    (submit_issues_single_turn_request (run readyEvents initState) "u1" "b1"
      rfl (by decide)).1⟩

/-- C9 counterexample: with a completed exchange already in the
transcript (user turn "First question" and its answer), submitting the
new draft "Second" issues a request whose conversation turns are exactly
the single new user turn: the prior user turn is not carried, so the
request does not contain the full prior conversation context. -/
theorem submit_request_omits_prior_context :
    ({ id := "u1", text := "First question", sender := Sender.user,
        isStreaming := none } : Message) ∈ (run secondTurnEvents initState).messages ∧
    (step (Event.submit "u2" "b2") (run secondTurnEvents initState)).requests.getLast? =
      some (requestFor "Second") ∧
    (requestFor "Second").contents = [{ role := "user", parts := ["Second"] }] ∧
    ({ role := "user", parts := ["First question"] } : Turn) ∉
      (requestFor "Second").contents := by
  refine ⟨by decide, rfl, rfl, by decide⟩

end ChatBot
